import Mathlib

/-!
Verification of the MCP-Server-Manager catalog discovery and access-policy
frontend logic. The definitions below are shallow embeddings of the
TypeScript sources; each definition names the file and function it is
translated from. Theorems about them follow after all definitions.
-/

namespace MCPManager

/-- Access mode of a policy, from the union type AccessMode in
frontend/mcp-dashboard/app/access-control/page.tsx. -/
inductive AccessMode where
  | allow
  | approval
  | deny
deriving DecidableEq, Repr

/-- Owner-level policy record (interface OwnerPolicy in
frontend/mcp-dashboard/app/access-control/page.tsx): a default mode plus a
map from endpoint id to override mode. JS records are modelled as
association lists with lookup semantics. -/
structure OwnerPolicy where
  defaultMode : AccessMode
  endpointModes : List (String × AccessMode)
deriving DecidableEq, Repr

/-- Policies: Record from owner id to OwnerPolicy. -/
abbrev Policies := List (String × OwnerPolicy)

/-- Lookup in a JS-record modelled as an association list; returns the
value at the first matching key, mirroring property access obj[key]. -/
def lookupKey {α : Type} : List (String × α) → String → Option α
  | [], _ => none
  | (k, v) :: rest, key => if k = key then some v else lookupKey rest key

/-- Spread-update of a JS record at one key, as in the source idiom
writing a record with one key replaced: lookup at the key yields the new
value and every other key is untouched. -/
def setKey {α : Type} (entries : List (String × α)) (key : String) (value : α) : List (String × α) :=
  (key, value) :: entries.filter (fun kv => kv.1 != key)

/-- Deletion of a key from a JS record, as in the delete statement inside
resetEndpointMode in frontend/mcp-dashboard/app/access-control/page.tsx. -/
def removeKey {α : Type} (entries : List (String × α)) (key : String) : List (String × α) :=
  entries.filter (fun kv => kv.1 != key)

/-- Fallback owner policy used when no policy row exists for an owner on the
access-control page (page.tsx line 464): defaultMode approval, no overrides. -/
def pageFallbackPolicy : OwnerPolicy :=
  { defaultMode := .approval, endpointModes := [] }

/-- getPolicy from frontend/mcp-dashboard/app/access-control/page.tsx
(lines 463-466): the stored policy for the owner, or the approval-mode
fallback when none exists. -/
def getPolicy (policies : Policies) (ownerId : String) : OwnerPolicy :=
  (lookupKey policies ownerId).getD pageFallbackPolicy

/-- Effective mode of one endpoint row as rendered by AccessControlPage
(page.tsx lines 831-834): the override at the endpoint id when present,
else the owner defaultMode. -/
def effectiveMode (policy : OwnerPolicy) (endpointId : String) : AccessMode :=
  (lookupKey policy.endpointModes endpointId).getD policy.defaultMode

/-- isOverride flag of one endpoint row (page.tsx line 835): whether the
endpoint id is a key of endpointModes. -/
def isOverride (policy : OwnerPolicy) (endpointId : String) : Bool :=
  (lookupKey policy.endpointModes endpointId).isSome

/-- Optimistic state update of updateDefaultMode
(page.tsx lines 470-473): replace the defaultMode of the owner policy,
falling back to the approval-mode policy when the owner has none. -/
def updateDefaultMode (policies : Policies) (ownerId : String) (mode : AccessMode) : Policies :=
  let previous := (lookupKey policies ownerId).getD pageFallbackPolicy
  setKey policies ownerId { previous with defaultMode := mode }

/-- Optimistic state update of updateEndpointMode
(page.tsx lines 492-501): write the override for one endpoint id. -/
def updateEndpointMode (policies : Policies) (ownerId endpointId : String) (mode : AccessMode) : Policies :=
  let previous := (lookupKey policies ownerId).getD pageFallbackPolicy
  setKey policies ownerId
    { previous with endpointModes := setKey previous.endpointModes endpointId mode }

/-- Optimistic state update of resetEndpointMode
(page.tsx lines 522-533): delete the override for one endpoint id. -/
def resetEndpointMode (policies : Policies) (ownerId endpointId : String) : Policies :=
  let previous := (lookupKey policies ownerId).getD pageFallbackPolicy
  setKey policies ownerId
    { previous with endpointModes := removeKey previous.endpointModes endpointId }

/-- Optimistic state update of applyToAllEndpoints
(page.tsx lines 554-568): write the mode as an override for every listed
endpoint id and also set the owner defaultMode to that same mode. -/
def applyToAllEndpoints (policies : Policies) (ownerId : String) (mode : AccessMode)
    (endpointIds : List String) : Policies :=
  let previous := (lookupKey policies ownerId).getD pageFallbackPolicy
  let nextEndpointModes :=
    endpointIds.foldl (fun acc endpointId => setKey acc endpointId mode) previous.endpointModes
  setKey policies ownerId
    { previous with defaultMode := mode, endpointModes := nextEndpointModes }

/-- Per-scope policy entry with allow-lists, as written by the react-query
hooks in src/unnamed/part_002 (mode, allowed_users, allowed_groups). -/
structure PolicyScope where
  mode : AccessMode
  allowed_users : List String
  allowed_groups : List String
deriving DecidableEq, Repr

/-- Extended owner policy shape handled by the react-query hooks in
src/unnamed/part_002: the legacy defaultMode and endpointModes fields plus
the newer defaultPolicy and endpointPolicies fields. -/
structure OwnerPolicyFull where
  defaultMode : AccessMode
  endpointModes : List (String × AccessMode)
  defaultPolicy : PolicyScope
  endpointPolicies : List (String × PolicyScope)
deriving DecidableEq, Repr

/-- Fallback owner policy inserted by the optimistic updates of
useUpdateEndpointPolicy and useUpdateOwnerDefaultPolicy in
src/unnamed/part_002 (lines 44-51 and 109-116) when the policies cache has
no entry for the owner: defaultMode deny. -/
def hooksFullFallbackPolicy : OwnerPolicyFull :=
  { defaultMode := .deny
    endpointModes := []
    defaultPolicy := { mode := .deny, allowed_users := [], allowed_groups := [] }
    endpointPolicies := [] }

/-- Fallback owner policy of the legacy useUpdateEndpointPolicy hook in
src/unnamed/part_008 (line 32) when the policies cache has no entry for
the owner: defaultMode approval. -/
def hooksLegacyFallbackPolicy : OwnerPolicy :=
  { defaultMode := .approval, endpointModes := [] }

/-- Policies cache handled by the full-featured hooks. -/
abbrev PoliciesFull := List (String × OwnerPolicyFull)

/-- Optimistic cache update applied by onMutate of useUpdateEndpointPolicy
in src/unnamed/part_002 (lines 36-69): ensure the owner entry exists with
the deny fallback, write the legacy endpointModes override, and write the
endpointPolicies entry keeping existing allow-lists when the call passes
none. -/
def optimisticEndpointUpdateFull (cache : PoliciesFull) (ownerId endpointId : String)
    (mode : AccessMode) (allowed_users allowed_groups : Option (List String)) : PoliciesFull :=
  let owner := (lookupKey cache ownerId).getD hooksFullFallbackPolicy
  let nextScope : PolicyScope :=
    { mode := mode
      allowed_users :=
        allowed_users.getD
          (((lookupKey owner.endpointPolicies endpointId).map PolicyScope.allowed_users).getD [])
      allowed_groups :=
        allowed_groups.getD
          (((lookupKey owner.endpointPolicies endpointId).map PolicyScope.allowed_groups).getD []) }
  setKey cache ownerId
    { owner with
      endpointModes := setKey owner.endpointModes endpointId mode
      endpointPolicies := setKey owner.endpointPolicies endpointId nextScope }

/-- Optimistic cache update applied by onMutate of the legacy
useUpdateEndpointPolicy in src/unnamed/part_008 (lines 29-37): ensure the
owner entry exists with the approval fallback, then write the override. -/
def optimisticEndpointUpdateLegacy (cache : Policies) (ownerId endpointId : String)
    (mode : AccessMode) : Policies :=
  let owner := (lookupKey cache ownerId).getD hooksLegacyFallbackPolicy
  setKey cache ownerId { owner with endpointModes := setKey owner.endpointModes endpointId mode }

/-- Mutation context captured by onMutate of useUpdateEndpointPolicy in
src/unnamed/part_002 (line 39) and src/unnamed/part_008 (line 27): the
cache snapshot taken before the optimistic update. -/
structure MutationContext where
  previous : PoliciesFull
deriving DecidableEq, Repr

/-- onMutate of useUpdateEndpointPolicy in src/unnamed/part_002: snapshot
the cache, apply the optimistic update, and return the new cache together
with the context holding the snapshot. -/
def endpointMutationOnMutate (cache : PoliciesFull) (ownerId endpointId : String)
    (mode : AccessMode) (allowed_users allowed_groups : Option (List String)) :
    PoliciesFull × MutationContext :=
  (optimisticEndpointUpdateFull cache ownerId endpointId mode allowed_users allowed_groups,
   { previous := cache })

/-- onError of useUpdateEndpointPolicy in src/unnamed/part_002 (line 72):
the cache is set back to the snapshot held in the context. -/
def endpointMutationOnError (context : MutationContext) : PoliciesFull :=
  context.previous

/-- JSON values handled by the OpenAPI endpoint builder in
src/unnamed/part_001. Numeric values are modelled as integers; no claim
below depends on numeric coercions. -/
inductive Json where
  | null
  | bool (b : Bool)
  | num (n : Int)
  | str (s : String)
  | arr (items : List Json)
  | obj (fields : List (String × Json))

/-- JS truthiness of a JSON value: null, false, 0 and the empty string are
falsy; arrays and objects are always truthy. -/
def jsTruthy : Json → Bool
  | .null => false
  | .bool b => b
  | .num n => n != 0
  | .str s => s != ""
  | .arr _ => true
  | .obj _ => true

/-- JS property access obj[key] on a JSON value: a field lookup on objects,
undefined (none) on everything else as used by the builder. -/
def jsonLookup (j : Json) (key : String) : Option Json :=
  match j with
  | .obj fields => lookupKey fields key
  | _ => none

/-- Test for a truthy object as in the guard of the builder loop in
src/unnamed/part_001 line 73: op must be truthy and of typeof object,
which holds exactly for objects and arrays. -/
def jsIsTruthyObject : Json → Bool
  | .obj _ => true
  | .arr _ => true
  | _ => false

/-- Object.entries as applied by the builder: the fields of an object, the
index-keyed elements of an array, the index-keyed characters of a string,
and the empty list for every primitive. -/
def jsEntries : Json → List (String × Json)
  | .obj fields => fields
  | .arr items => items.enum.map (fun iv => (toString iv.1, iv.2))
  | .str s => s.data.enum.map (fun ic => (toString ic.1, Json.str ic.2.toString))
  | _ => []

mutual

/-- String coercion String(v) of a JSON value. Only the string case is
relevant to the claims; arrays and objects use the usual JS renderings. -/
def jsToString : Json → String
  | .null => "null"
  | .bool b => if b then "true" else "false"
  | .num n => toString n
  | .str s => s
  | .arr items => String.intercalate "," (jsToStringList items)
  | .obj _ => "[object Object]"

/-- String coercions of the elements of a JSON array, in order. -/
def jsToStringList : List Json → List String
  | [] => []
  | j :: rest => jsToString j :: jsToStringList rest

end

/-- Coercion String(v || default) for a looked-up field, as in the summary
and description fields of the builder: the string form of the value when
truthy, else the given default string. -/
def jsStringOr (v : Option Json) (default : String) : String :=
  match v with
  | some w => if jsTruthy w then jsToString w else default
  | none => default

/-- Coercion v || null used for the requestBody field of the builder. -/
def jsOrNull (v : Option Json) : Json :=
  match v with
  | some w => if jsTruthy w then w else .null
  | none => .null

/-- Coercion v || default object used for the responses field. -/
def jsOrEmptyObj (v : Option Json) : Json :=
  match v with
  | some w => if jsTruthy w then w else .obj []
  | none => .obj []

/-- Coercion for the parameters field of the builder: the items when the
value is an array, else the empty list. -/
def jsArrayOrNil (v : Option Json) : List Json :=
  match v with
  | some (.arr items) => items
  | _ => []

/-- JS toLowerCase, modelled per character on the character sequence. -/
def jsToLower (s : String) : String :=
  String.mk (s.data.map Char.toLower)

/-- JS toUpperCase, modelled per character on the character sequence. -/
def jsToUpper (s : String) : String :=
  String.mk (s.data.map Char.toUpper)

/-- HTTP method whitelist HTTP_METHODS in src/unnamed/part_001 line 53. -/
def HTTP_METHODS : List String :=
  ["get", "post", "put", "patch", "delete", "head", "options", "trace"]

/-- Discovered endpoint record built by buildEndpointsFromOpenApi
(interface DiscoveredEndpoint in src/unnamed/part_001). -/
structure DiscoveredEndpoint where
  id : String
  method : String
  path : String
  operationId : String
  summary : String
  description : String
  parameters : List Json
  requestBody : Json
  responses : Json

/-- Replacement of every character that is not an ASCII letter or digit by
an underscore, as performed by the regex replace on the path in
src/unnamed/part_001 line 74. -/
def normalizeOpenApiPath (path : String) : String :=
  String.mk (path.data.map (fun c => if c.isAlphanum then c else '_'))

/-- Fallback operation id derived from the lowercased method and the
normalized path (src/unnamed/part_001 line 74). -/
def derivedOperationId (method path : String) : String :=
  method ++ "_" ++ normalizeOpenApiPath path

/-- Coercion String(op.operationId || derived) of the builder: the string
form of a truthy operationId field, else the derived id. -/
def operationIdOf (op : Json) (method path : String) : String :=
  match jsonLookup op "operationId" with
  | some v => if jsTruthy v then jsToString v else derivedOperationId method path
  | none => derivedOperationId method path

/-- One DiscoveredEndpoint as pushed by the builder loop body in
src/unnamed/part_001 lines 74-85; method is the already-lowercased method
key. -/
def discoveredEndpointOf (path method : String) (op : Json) : DiscoveredEndpoint :=
  { id := jsToUpper method ++ " " ++ path
    method := jsToUpper method
    path := path
    operationId := operationIdOf op method path
    summary := jsStringOr (jsonLookup op "summary") ""
    description := jsStringOr (jsonLookup op "description") ""
    parameters := jsArrayOrNil (jsonLookup op "parameters")
    requestBody := jsOrNull (jsonLookup op "requestBody")
    responses := jsOrEmptyObj (jsonLookup op "responses") }

/-- Guard of the builder loop: the lowercased method key must be in
HTTP_METHODS and the operation value must be a truthy object. -/
def qualifiesAsOperation (rawMethod : String) (rawOp : Json) : Bool :=
  HTTP_METHODS.contains (jsToLower rawMethod) && jsIsTruthyObject rawOp

/-- Nested loop of buildEndpointsFromOpenApi (src/unnamed/part_001 lines
64-87): iterate the entries of the paths value, skip entries failing the
guard, and push one DiscoveredEndpoint per surviving path-and-method
pair. -/
def buildEndpointsItems (spec : Json) : List DiscoveredEndpoint :=
  let paths : Json :=
    match jsonLookup spec "paths" with
    | some v => if jsTruthy v then v else .obj []
    | none => .obj []
  (jsEntries paths).flatMap (fun pathEntry =>
    (jsEntries pathEntry.2).filterMap (fun methodEntry =>
      if qualifiesAsOperation methodEntry.1 methodEntry.2 then
        some (discoveredEndpointOf pathEntry.1 (jsToLower methodEntry.1) methodEntry.2)
      else none))

/-- buildEndpointsFromOpenApi (src/unnamed/part_001 lines 63-90): the
items of the nested loop sorted by id. The localeCompare comparator is
modelled as the code-point order on ids; every claim below depends only on
the multiset of produced items. -/
def buildEndpointsFromOpenApi (spec : Json) : List DiscoveredEndpoint :=
  (buildEndpointsItems spec).mergeSort (fun a b => a.id ≤ b.id)

/-- Sample OpenAPI document used to evaluate the endpoint builder on a
concrete input: path /a carries two qualifying method entries (get and GET,
whose lowercasing collides deliberately), one non-method key and one
method key with a non-object value; path /b carries one qualifying entry. -/
def sampleOpenApiSpec : Json :=
  .obj
    [("openapi", .str "3.0.0"),
     ("paths",
      .obj
        [("/a",
          .obj
            [("get", .obj [("summary", .str "list")]),
             ("GET", .obj []),
             ("parameters", .obj []),
             ("post", .str "bad")]),
         ("/b", .obj [("delete", .arr [])])])]

/-- Probe status of one owner, the named states of
CatalogAppDiagnostic.status in src/mocks/types/accessPolicies.ts. -/
inductive ProbeStatus where
  | healthy
  | zero_endpoints
  | unreachable
deriving DecidableEq, Repr

/-- Catalog tool record, interface CatalogTool in
src/mocks/types/accessPolicies.ts lines 20-28. -/
structure CatalogTool where
  name : String
  title : String
  app : String
  method : String
  path : String
  is_placeholder : Bool
  placeholder_reason : Option String
deriving DecidableEq, Repr

/-- Modelled from the spec: one raw callable operation returned by the
Spec/Tool Prober (spec section 4.1); the backend prober source is not
under src/. -/
structure RawOperation where
  name : String
  method : String
  path : String
  description : String
deriving DecidableEq, Repr

/-- Modelled from the spec: the per-owner probe outcome consumed by the
Catalog Builder (spec sections 4.1 and 4.2); the backend catalog builder
source is not under src/. -/
structure ProbedOwner where
  name : String
  status : ProbeStatus
  include_unreachable_tools : Bool
  operations : List RawOperation
  error : Option String
deriving DecidableEq, Repr

/-- Modelled from the spec: the synthetic placeholder tool standing in for
an unreachable or empty owner (spec section 4.1: fixed name and method,
description carrying the failure reason; is_placeholder set). -/
def placeholderCatalogTool (ownerName : String) (reason : Option String) : CatalogTool :=
  { name := ownerName ++ "_unavailable"
    title := (reason).getD "endpoint unavailable"
    app := ownerName
    method := "get"
    path := "/"
    is_placeholder := true
    placeholder_reason := reason }

/-- Modelled from the spec: the catalog tools contributed by one probed
owner (spec sections 4.1 and 4.2). A healthy owner contributes one tool
per raw operation; an unreachable or zero-endpoint owner contributes
exactly one placeholder tool when include_unreachable_tools is set and
nothing otherwise. -/
def ownerCatalogTools (owner : ProbedOwner) : List CatalogTool :=
  match owner.status with
  | .healthy =>
      owner.operations.map (fun op =>
        { name := op.name
          title := op.description
          app := owner.name
          method := op.method
          path := op.path
          is_placeholder := false
          placeholder_reason := none })
  | _ =>
      if owner.include_unreachable_tools then
        [placeholderCatalogTool owner.name owner.error]
      else []

/-- Modelled from the spec: the outcome of dispatching one tool call (spec
section 4.4): either a proxied network request or a structured
unavailable result produced without any network call. -/
inductive InvocationResult where
  | unavailable (reason : Option String)
  | httpCall (method path : String)
deriving DecidableEq, Repr

/-- Modelled from the spec: the Dispatcher decision for one catalog tool
(spec section 4.4: never execute if the tool is a placeholder, return a
structured unavailable result instead). -/
def invokeTool (tool : CatalogTool) : InvocationResult :=
  if tool.is_placeholder then .unavailable tool.placeholder_reason
  else .httpCall tool.method tool.path

/-- Whether an invocation outcome performed a network call. -/
def isNetworkInvocation : InvocationResult → Bool
  | .httpCall _ _ => true
  | .unavailable _ => false

/-- Result of the browser URL parser for a submitted server URL string.
The parser itself (new URL) is a platform API outside the repository, so
its outcome, either a parsed form or a parse failure (none), is the input
of the validation below. -/
structure ParsedUrl where
  protocol : String
  hostname : String
  port : String
deriving DecidableEq, Repr

/-- One dot-separated component of the ipv4Pattern regex in
frontend/mcp-dashboard/app/register-server/page.tsx lines 20-21: the
anchored alternation 25[0-5], 2[0-4] digit, 1 digit digit, or an optional
leading 1-9 followed by one digit. -/
def ipv4ComponentOk (s : List Char) : Bool :=
  match s with
  | [c] => c.isDigit
  | [c, d] => ('1' ≤ c && c ≤ '9') && d.isDigit
  | [c, d, e] =>
      (c == '2' && d == '5' && ('0' ≤ e && e ≤ '5')) ||
      (c == '2' && ('0' ≤ d && d ≤ '4') && e.isDigit) ||
      (c == '1' && d.isDigit && e.isDigit)
  | _ => false

/-- isValidIpAddress from
frontend/mcp-dashboard/app/register-server/page.tsx lines 19-26: the
IPv4 regex test on four dot-separated components, with the minimal IPv6
allowance of any hostname containing a colon. -/
def isValidIpAddress (hostname : String) : Bool :=
  (let parts := hostname.data.splitOn '.'
   parts.length == 4 && parts.all ipv4ComponentOk) || hostname.data.contains ':'

/-- validateServerUrlInput from
frontend/mcp-dashboard/app/register-server/page.tsx lines 28-54: an error
message for a parse failure, a non-http(s) protocol, a missing explicit
port, or a hostname that is neither localhost, a dotted domain, nor a
valid IP; null (none) when the URL passes all checks. -/
def validateServerUrlInput (parsed : Option ParsedUrl) : Option String :=
  match parsed with
  | none => some "Enter a valid URL (example: http://10.0.0.5:8005/mcp)"
  | some p =>
    if !(["http:", "https:"].contains p.protocol) then
      some "URL must start with http:// or https://"
    else if p.port == "" then
      some "URL must include an explicit port (example: :8005)"
    else
      let hostname := p.hostname
      let isLocalhost := hostname == "localhost"
      let isFqdn := hostname.data.contains '.'
      let isIp := isValidIpAddress hostname
      if !isLocalhost && !isFqdn && !isIp then
        some "Host must be a valid IP, localhost, or a full domain (example: api.example.com)"
      else
        none

/-- Outcome of submitting the registration form: either an early rejection
with an error message, or the POST of the registration request. -/
inductive SubmitOutcome where
  | rejected (message : String)
  | sentRegistration
deriving DecidableEq, Repr

/-- Control flow of handleSubmit in
frontend/mcp-dashboard/app/register-server/page.tsx lines 107-124: when
validateServerUrlInput returns an error the submission stops with that
error and no registration request is sent; otherwise the registration
request is sent. -/
def handleSubmit (parsedUrl : Option ParsedUrl) : SubmitOutcome :=
  match validateServerUrlInput parsedUrl with
  | some message => .rejected message
  | none => .sentRegistration

/-- Whether a submit outcome is an early rejection. -/
def isRejected : SubmitOutcome → Bool
  | .rejected _ => true
  | .sentRegistration => false

/-- App item of the access-control page (interface AppItem in
frontend/mcp-dashboard/app/access-control/page.tsx). -/
structure AppItem where
  name : String
  url : String
  openapi_path : String
  include_unreachable_tools : Bool
deriving DecidableEq, Repr

/-- MCP server item of the access-control page (interface ServerItem in
frontend/mcp-dashboard/app/access-control/page.tsx). -/
structure ServerItem where
  name : String
  url : String
deriving DecidableEq, Repr

/-- Owner kind, type OwnerType in
frontend/mcp-dashboard/app/access-control/page.tsx. -/
inductive OwnerType where
  | app
  | mcp
deriving DecidableEq, Repr

/-- Owner row of the access-control page (interface OwnerItem in
frontend/mcp-dashboard/app/access-control/page.tsx). -/
structure OwnerItem where
  id : String
  type : OwnerType
  name : String
  url : String
  endpointCount : Nat
deriving DecidableEq, Repr

/-- Endpoint row of the access-control page (interface EndpointItem in
frontend/mcp-dashboard/app/access-control/page.tsx). -/
structure EndpointItem where
  id : String
  displayName : String
  subtitle : String
  isPlaceholder : Bool
  placeholderReason : Option String
deriving DecidableEq, Repr

/-- Owners list construction of AccessControlPage
(frontend/mcp-dashboard/app/access-control/page.tsx lines 289-307): app
owners with id app: followed by the app name, then MCP owners with id
mcp: followed by the server name. -/
def ownersOf (apps : List AppItem) (servers : List ServerItem)
    (catalogTools : List CatalogTool)
    (mcpEndpointsByServer : List (String × List EndpointItem)) : List OwnerItem :=
  (apps.map (fun app =>
    { id := "app:" ++ app.name
      type := OwnerType.app
      name := app.name
      url := app.url
      endpointCount := (catalogTools.filter (fun tool => tool.app == app.name)).length })) ++
  (servers.map (fun server =>
    { id := "mcp:" ++ server.name
      type := OwnerType.mcp
      name := server.name
      url := server.url
      endpointCount := ((lookupKey mcpEndpointsByServer server.name).map List.length).getD 0 }))

/-- JS String.prototype.startsWith, modelled on the character sequences of
the two strings. -/
def strStartsWith (s pre : String) : Bool :=
  pre.data.isPrefixOf s.data

/-- MCP-owner classification of AccessControlModal
(frontend/components/access-control/AccessControlModal.tsx line 36): an
owner id is an MCP owner exactly when it starts with mcp: . -/
def isMcpOwner (ownerId : String) : Bool :=
  strStartsWith ownerId "mcp:"

end MCPManager

namespace MCPManager

theorem lookupKey_setKey_self {α : Type} (l : List (String × α)) (k : String) (v : α) :
    lookupKey (setKey l k v) k = some v := by
  simp [setKey, lookupKey]

theorem lookupKey_setKey_other {α : Type} (l : List (String × α)) (k k' : String) (v : α)
    (h : k' ≠ k) : lookupKey (setKey l k v) k' = lookupKey l k' := by
  simp only [setKey, lookupKey, if_neg (Ne.symm h)]
  induction l with
  | nil => rfl
  | cons hd tl ih =>
    by_cases hk : hd.1 = k
    · have : (hd.1 != k) = false := by simp [hk]
      simp only [List.filter, this, lookupKey]
      rw [if_neg (by rw [hk]; exact fun he => h he.symm)]
      exact ih
    · have : (hd.1 != k) = true := by simp [hk]
      simp only [List.filter, this, lookupKey]
      by_cases he : hd.1 = k'
      · simp [he]
      · simp only [if_neg he]
        exact ih

theorem lookupKey_removeKey_self {α : Type} (l : List (String × α)) (k : String) :
    lookupKey (removeKey l k) k = none := by
  induction l with
  | nil => rfl
  | cons hd tl ih =>
    by_cases hk : hd.1 = k
    · have : (hd.1 != k) = false := by simp [hk]
      simpa [removeKey, List.filter, this] using ih
    · have : (hd.1 != k) = true := by simp [hk]
      simp only [removeKey, List.filter, this] at *
      simpa [lookupKey, if_neg hk] using ih

theorem lookupKey_removeKey_other {α : Type} (l : List (String × α)) (k k' : String)
    (h : k' ≠ k) : lookupKey (removeKey l k) k' = lookupKey l k' := by
  induction l with
  | nil => rfl
  | cons hd tl ih =>
    by_cases hk : hd.1 = k
    · have hne : hd.1 ≠ k' := by rw [hk]; exact fun he => h he.symm
      have : (hd.1 != k) = false := by simp [hk]
      simp only [removeKey, List.filter, this] at *
      simpa [lookupKey, if_neg hne] using ih
    · have : (hd.1 != k) = true := by simp [hk]
      simp only [removeKey, List.filter, this] at *
      by_cases he : hd.1 = k'
      · simp [lookupKey, he]
      · simpa [lookupKey, if_neg he] using ih

/-- C1: for every owner policy and endpoint id, the effective access mode
is the override mode whenever endpointModes carries an entry for that
endpoint, and is the owner defaultMode when it carries none. -/
theorem effectiveMode_resolution (policy : OwnerPolicy) (endpointId : String) :
    (∀ m : AccessMode, lookupKey policy.endpointModes endpointId = some m →
        effectiveMode policy endpointId = m) ∧
    (lookupKey policy.endpointModes endpointId = none →
        effectiveMode policy endpointId = policy.defaultMode) := by
  constructor
  · intro m hm
    simp [effectiveMode, hm]
  · intro hn
    simp [effectiveMode, hn]

/-- Witness for effectiveMode_resolution at a concrete policy with one
override present and one endpoint without an override. -/
theorem effectiveMode_resolution_witness :
    effectiveMode { defaultMode := .deny, endpointModes := [("t1", .allow)] } "t1" = .allow ∧
    effectiveMode { defaultMode := .deny, endpointModes := [("t1", .allow)] } "t2" = .deny := by
  refine ⟨(effectiveMode_resolution _ "t1").1 .allow (by decide), ?_⟩
  exact (effectiveMode_resolution { defaultMode := .deny, endpointModes := [("t1", .allow)] } "t2").2 (by decide)

/-- C2: two surfaces fall back to different default modes for the same
absent owner policy: getPolicy on the access-control page falls back to
approval, while the optimistic update of useUpdateEndpointPolicy in
src/unnamed/part_002 creates the missing owner entry with defaultMode
deny. -/
theorem missing_policy_default_divergence :
    (getPolicy [] "app:x").defaultMode = AccessMode.approval ∧
    (lookupKey (optimisticEndpointUpdateFull [] "app:x" "e1" .allow none none) "app:x").map
        OwnerPolicyFull.defaultMode = some AccessMode.deny ∧
    (AccessMode.approval == AccessMode.deny) = false := by
  refine ⟨rfl, rfl, by decide⟩

/-- C3: resetting an endpoint override makes the effective mode of that
endpoint equal the owner defaultMode as read from the updated state, and
changing the owner defaultMode immediately changes the effective mode of
every endpoint without an override, because resolution always re-reads the
current policy record. -/
theorem reset_falls_back_to_current_default (policies : Policies) (ownerId endpointId : String) :
    (effectiveMode (getPolicy (resetEndpointMode policies ownerId endpointId) ownerId) endpointId
      = (getPolicy (resetEndpointMode policies ownerId endpointId) ownerId).defaultMode) ∧
    (∀ (mode : AccessMode) (otherId : String),
      lookupKey (getPolicy policies ownerId).endpointModes otherId = none →
      effectiveMode (getPolicy (updateDefaultMode policies ownerId mode) ownerId) otherId = mode) := by
  constructor
  · have hpol :
        getPolicy (resetEndpointMode policies ownerId endpointId) ownerId
          = { (lookupKey policies ownerId).getD pageFallbackPolicy with
              endpointModes :=
                removeKey ((lookupKey policies ownerId).getD pageFallbackPolicy).endpointModes
                  endpointId } := by
      simp [getPolicy, resetEndpointMode, lookupKey_setKey_self]
    rw [hpol]
    simp [effectiveMode, lookupKey_removeKey_self]
  · intro mode otherId hnone
    have hpol :
        getPolicy (updateDefaultMode policies ownerId mode) ownerId
          = { (lookupKey policies ownerId).getD pageFallbackPolicy with defaultMode := mode } := by
      simp [getPolicy, updateDefaultMode, lookupKey_setKey_self]
    rw [hpol]
    simp only [getPolicy] at hnone
    simp [effectiveMode, hnone]

/-- Witness for reset_falls_back_to_current_default: an owner whose policy
has an override for endpoint t1; after the reset the effective mode of t1
is the defaultMode, and flipping the default to deny changes the mode of
the un-overridden endpoint t2 to deny. -/
theorem reset_falls_back_witness :
    (effectiveMode
        (getPolicy
          (resetEndpointMode [("app:a", { defaultMode := .allow, endpointModes := [("t1", .deny)] })]
            "app:a" "t1") "app:a") "t1"
      = (getPolicy
          (resetEndpointMode [("app:a", { defaultMode := .allow, endpointModes := [("t1", .deny)] })]
            "app:a" "t1") "app:a").defaultMode) ∧
    effectiveMode
        (getPolicy
          (updateDefaultMode [("app:a", { defaultMode := .allow, endpointModes := [("t1", .deny)] })]
            "app:a" .deny) "app:a") "t2" = .deny := by
  refine ⟨(reset_falls_back_to_current_default
      [("app:a", { defaultMode := .allow, endpointModes := [("t1", .deny)] })] "app:a" "t1").1, ?_⟩
  exact (reset_falls_back_to_current_default
      [("app:a", { defaultMode := .allow, endpointModes := [("t1", .deny)] })] "app:a" "t1").2
    .deny "t2" (by decide)

/-- C4 counterexample: applyToAllEndpoints does not leave the owner
defaultMode unchanged. For an owner whose defaultMode is allow, applying
deny to all endpoints also rewrites the defaultMode to deny. -/
theorem applyToAllEndpoints_changes_defaultMode :
    (getPolicy [("app:billing", { defaultMode := .allow, endpointModes := [] })] "app:billing").defaultMode
      = AccessMode.allow ∧
    (getPolicy
        (applyToAllEndpoints [("app:billing", { defaultMode := .allow, endpointModes := [] })]
          "app:billing" .deny ["t1"]) "app:billing").defaultMode
      = AccessMode.deny := by
  exact ⟨rfl, rfl⟩

theorem lookupKey_foldl_setKey_of_not_mem (ids : List String) (l : List (String × AccessMode))
    (mode : AccessMode) (e : String) (h : e ∉ ids) :
    lookupKey (ids.foldl (fun acc endpointId => setKey acc endpointId mode) l) e = lookupKey l e := by
  induction ids generalizing l with
  | nil => rfl
  | cons hd tl ih =>
    simp only [List.foldl_cons]
    have hne : e ≠ hd := fun hc => h (hc ▸ List.mem_cons_self hd tl)
    rw [ih _ (List.not_mem_of_not_mem_cons h), lookupKey_setKey_other _ _ _ _ hne]

theorem lookupKey_foldl_setKey_of_mem (ids : List String) (l : List (String × AccessMode))
    (mode : AccessMode) (e : String) (h : e ∈ ids) :
    lookupKey (ids.foldl (fun acc endpointId => setKey acc endpointId mode) l) e = some mode := by
  induction ids generalizing l with
  | nil => cases h
  | cons hd tl ih =>
    simp only [List.foldl_cons]
    rcases List.mem_cons.mp h with he | he
    · by_cases hmem : e ∈ tl
      · exact ih _ hmem
      · subst he
        rw [lookupKey_foldl_setKey_of_not_mem tl _ mode e hmem]
        exact lookupKey_setKey_self l e mode
    · exact ih _ he

/-- C4 amended: applyToAllEndpoints writes the given mode as an override
for exactly the listed endpoint ids, leaves every other override of that
owner unchanged, leaves every other owner untouched, and additionally
rewrites the owner defaultMode to the given mode. -/
theorem applyToAllEndpoints_spec (policies : Policies) (ownerId : String) (mode : AccessMode)
    (endpointIds : List String) :
    ((getPolicy (applyToAllEndpoints policies ownerId mode endpointIds) ownerId).defaultMode = mode) ∧
    (∀ e ∈ endpointIds,
      lookupKey (getPolicy (applyToAllEndpoints policies ownerId mode endpointIds) ownerId).endpointModes e
        = some mode) ∧
    (∀ e, e ∉ endpointIds →
      lookupKey (getPolicy (applyToAllEndpoints policies ownerId mode endpointIds) ownerId).endpointModes e
        = lookupKey (getPolicy policies ownerId).endpointModes e) ∧
    (∀ otherId, otherId ≠ ownerId →
      lookupKey (applyToAllEndpoints policies ownerId mode endpointIds) otherId
        = lookupKey policies otherId) := by
  have hpol :
      getPolicy (applyToAllEndpoints policies ownerId mode endpointIds) ownerId
        = { (lookupKey policies ownerId).getD pageFallbackPolicy with
            defaultMode := mode
            endpointModes :=
              endpointIds.foldl (fun acc endpointId => setKey acc endpointId mode)
                ((lookupKey policies ownerId).getD pageFallbackPolicy).endpointModes } := by
    simp [getPolicy, applyToAllEndpoints, lookupKey_setKey_self]
  refine ⟨by rw [hpol], ?_, ?_, ?_⟩
  · intro e he
    rw [hpol]
    exact lookupKey_foldl_setKey_of_mem _ _ _ _ he
  · intro e he
    rw [hpol]
    simpa [getPolicy] using lookupKey_foldl_setKey_of_not_mem _ _ _ _ he
  · intro otherId hne
    exact lookupKey_setKey_other _ _ _ _ hne

/-- Witness for applyToAllEndpoints_spec at a concrete state: owner app:a
with an existing override for t0, applying deny to t1 and t2. -/
theorem applyToAllEndpoints_spec_witness :
    lookupKey
        (getPolicy
          (applyToAllEndpoints
            [("app:a", { defaultMode := .allow, endpointModes := [("t0", .approval)] })]
            "app:a" .deny ["t1", "t2"]) "app:a").endpointModes "t1" = some .deny ∧
    lookupKey
        (getPolicy
          (applyToAllEndpoints
            [("app:a", { defaultMode := .allow, endpointModes := [("t0", .approval)] })]
            "app:a" .deny ["t1", "t2"]) "app:a").endpointModes "t0" = some .approval ∧
    lookupKey
        (applyToAllEndpoints
          [("app:a", { defaultMode := .allow, endpointModes := [("t0", .approval)] })]
          "app:a" .deny ["t1", "t2"]) "mcp:b" = none := by
  refine ⟨(applyToAllEndpoints_spec
      [("app:a", { defaultMode := .allow, endpointModes := [("t0", .approval)] })]
      "app:a" .deny ["t1", "t2"]).2.1 "t1" (by decide), ?_, ?_⟩
  · have h := (applyToAllEndpoints_spec
        [("app:a", { defaultMode := .allow, endpointModes := [("t0", .approval)] })]
        "app:a" .deny ["t1", "t2"]).2.2.1 "t0" (by decide)
    rw [h]
    decide
  · have h := (applyToAllEndpoints_spec
        [("app:a", { defaultMode := .allow, endpointModes := [("t0", .approval)] })]
        "app:a" .deny ["t1", "t2"]).2.2.2 "mcp:b" (by decide)
    rw [h]
    decide

/-- C9: a failed endpoint-policy mutation restores the cache to exactly the
snapshot captured by onMutate before the optimistic update was applied, so
the observable policy state after a failed write equals the state before
it. -/
theorem failed_endpoint_mutation_restores_snapshot (cache : PoliciesFull)
    (ownerId endpointId : String) (mode : AccessMode)
    (allowed_users allowed_groups : Option (List String)) :
    endpointMutationOnError
        (endpointMutationOnMutate cache ownerId endpointId mode allowed_users allowed_groups).2
      = cache := rfl

theorem filterMap_guard_eq_map_filter {α β : Type} (p : α → Bool) (f : α → β) (l : List α) :
    l.filterMap (fun x => if p x then some (f x) else none) = (l.filter p).map f := by
  induction l with
  | nil => rfl
  | cons hd tl ih =>
    by_cases h : p hd
    · simp [List.filterMap_cons, List.filter_cons, h, ih]
    · simp [List.filterMap_cons, List.filter_cons, h, ih]

/-- C6: for a document whose paths value is an object, the endpoint
builder produces, up to the final sort by id, exactly one operation per
path-and-method entry whose lowercased method key is one of the eight HTTP
methods and whose operation value is a truthy object; the length equals
the count of such pairs; and a document with an absent or empty paths
object yields zero operations. -/
theorem buildEndpoints_one_per_qualifying_pair (spec : Json) :
    (∀ pathFields : List (String × Json),
      jsonLookup spec "paths" = some (Json.obj pathFields) →
      (buildEndpointsFromOpenApi spec).Perm
        (pathFields.flatMap (fun pathEntry =>
          ((jsEntries pathEntry.2).filter (fun me => qualifiesAsOperation me.1 me.2)).map
            (fun me => discoveredEndpointOf pathEntry.1 (jsToLower me.1) me.2))) ∧
      (buildEndpointsFromOpenApi spec).length =
        (pathFields.map (fun pathEntry =>
          ((jsEntries pathEntry.2).filter (fun me => qualifiesAsOperation me.1 me.2)).length)).sum) ∧
    (jsonLookup spec "paths" = none → buildEndpointsFromOpenApi spec = []) ∧
    (jsonLookup spec "paths" = some (Json.obj []) → buildEndpointsFromOpenApi spec = []) := by
  refine ⟨?_, ?_, ?_⟩
  · intro pathFields h
    have hitems : buildEndpointsItems spec =
        pathFields.flatMap (fun pathEntry =>
          ((jsEntries pathEntry.2).filter (fun me => qualifiesAsOperation me.1 me.2)).map
            (fun me => discoveredEndpointOf pathEntry.1 (jsToLower me.1) me.2)) := by
      simp only [buildEndpointsItems, h, jsTruthy, if_true, jsEntries]
      simp only [filterMap_guard_eq_map_filter]
    have hperm : (buildEndpointsFromOpenApi spec).Perm (buildEndpointsItems spec) :=
      List.mergeSort_perm _ _
    constructor
    · rw [hitems] at hperm
      exact hperm
    · rw [hperm.length_eq, hitems, List.length_flatMap]
      simp [Function.comp_def, List.length_map]
  · intro h
    simp [buildEndpointsFromOpenApi, buildEndpointsItems, h, jsEntries, List.mergeSort_nil]
  · intro h
    simp [buildEndpointsFromOpenApi, buildEndpointsItems, h, jsTruthy, jsEntries,
      List.mergeSort_nil]

/-- Witness for buildEndpoints_one_per_qualifying_pair on the sample
document: path /a carries two qualifying entries and path /b one, so the
builder yields exactly three operations. -/
theorem buildEndpoints_witness :
    (buildEndpointsFromOpenApi sampleOpenApiSpec).length = 3 := by
  have h := ((buildEndpoints_one_per_qualifying_pair sampleOpenApiSpec).1 _ rfl).2
  rw [h]
  decide

/-- C7: when an operation object has no operationId field, the operation
id produced by the builder for a lowercased method is the lowercase
method, an underscore, and the path with every character that is not an
ASCII letter or digit replaced by an underscore. -/
theorem operationId_without_explicit_id (method path : String) (op : Json)
    (h : jsonLookup op "operationId" = none) :
    (discoveredEndpointOf path (jsToLower method) op).operationId
      = jsToLower method ++ "_" ++ normalizeOpenApiPath path := by
  simp [discoveredEndpointOf, operationIdOf, h, derivedOperationId]

/-- Witness for operationId_without_explicit_id: GET on /users/{id} with
no operationId derives get__users__id_. -/
theorem operationId_witness :
    (discoveredEndpointOf "/users/{id}" (jsToLower "GET")
        (Json.obj [("summary", Json.str "List users")])).operationId = "get__users__id_" := by
  rw [operationId_without_explicit_id "GET" "/users/{id}"
    (Json.obj [("summary", Json.str "List users")]) rfl]
  decide

/-- C5: an unreachable owner with include_unreachable_tools set
contributes exactly one catalog tool, that tool is a placeholder, and
invoking it yields the structured unavailable result rather than a
network call. -/
theorem unreachable_owner_placeholder (owner : ProbedOwner)
    (hstatus : owner.status = ProbeStatus.unreachable)
    (hinclude : owner.include_unreachable_tools = true) :
    (ownerCatalogTools owner).length = 1 ∧
    ∀ tool ∈ ownerCatalogTools owner,
      tool.is_placeholder = true ∧ isNetworkInvocation (invokeTool tool) = false := by
  have h : ownerCatalogTools owner = [placeholderCatalogTool owner.name owner.error] := by
    simp [ownerCatalogTools, hstatus, hinclude]
  rw [h]
  refine ⟨rfl, ?_⟩
  intro tool ht
  rcases List.mem_singleton.mp ht with rfl
  exact ⟨rfl, rfl⟩

/-- Witness for unreachable_owner_placeholder at a concrete unreachable
owner. -/
theorem unreachable_owner_placeholder_witness :
    (ownerCatalogTools
        { name := "flaky-api", status := .unreachable, include_unreachable_tools := true,
          operations := [], error := some "timeout" }).length = 1 ∧
    isNetworkInvocation (invokeTool (placeholderCatalogTool "flaky-api" (some "timeout"))) = false := by
  refine ⟨(unreachable_owner_placeholder
      { name := "flaky-api", status := .unreachable, include_unreachable_tools := true,
        operations := [], error := some "timeout" } rfl rfl).1, ?_⟩
  exact ((unreachable_owner_placeholder
      { name := "flaky-api", status := .unreachable, include_unreachable_tools := true,
        operations := [], error := some "timeout" } rfl rfl).2 _ (by decide)).2

theorem handleSubmit_rejected_of_validation_error (parsedUrl : Option ParsedUrl)
    (h : validateServerUrlInput parsedUrl ≠ none) :
    ∃ message, handleSubmit parsedUrl = SubmitOutcome.rejected message := by
  cases hv : validateServerUrlInput parsedUrl with
  | none => exact absurd hv h
  | some m =>
    refine ⟨m, ?_⟩
    unfold handleSubmit
    rw [hv]

/-- C8: a submission whose URL fails to parse, whose protocol is neither
http nor https, whose port is empty, or whose hostname is neither
localhost, a dotted domain, nor a valid IP address, is rejected with an
error message and the registration request is never sent. -/
theorem invalid_url_rejected_before_registration (parsedUrl : Option ParsedUrl)
    (h : parsedUrl = none ∨
      ∃ p, parsedUrl = some p ∧
        ((["http:", "https:"].contains p.protocol) = false ∨
         p.port = "" ∨
         ((p.hostname == "localhost") = false ∧ p.hostname.data.contains '.' = false ∧
          isValidIpAddress p.hostname = false))) :
    ∃ message, handleSubmit parsedUrl = SubmitOutcome.rejected message := by
  apply handleSubmit_rejected_of_validation_error
  rcases h with rfl | ⟨p, rfl, hbad⟩
  · simp [validateServerUrlInput]
  · rcases hbad with hb | hb | ⟨h1, h2, h3⟩
    · have hb1 : ¬p.protocol = "http:" := by
        intro he
        simp [he] at hb
      have hb2 : ¬p.protocol = "https:" := by
        intro he
        simp [he] at hb
      simp [validateServerUrlInput, hb1, hb2]
    · simp only [validateServerUrlInput]
      split
      · simp
      · simp [hb]
    · simp only [validateServerUrlInput]
      split
      · simp
      · split
        · simp
        · have hl : ¬p.hostname = "localhost" := by
            intro he
            simp [he] at h1
          have hd : '.' ∉ p.hostname.data := by
            simpa using h2
          simp [hl, hd, h3]

/-- Witness for invalid_url_rejected_before_registration: an ftp URL with
an explicit port and a dotted hostname is still rejected. -/
theorem invalid_url_rejected_witness :
    isRejected
        (handleSubmit (some { protocol := "ftp:", hostname := "files.example.com", port := "21" }))
      = true := by
  obtain ⟨message, hmsg⟩ := invalid_url_rejected_before_registration
    (some { protocol := "ftp:", hostname := "files.example.com", port := "21" })
    (Or.inr ⟨_, rfl, Or.inl (by decide)⟩)
  rw [hmsg]
  rfl

theorem strStartsWith_mcp_append (n : String) : strStartsWith ("mcp:" ++ n) "mcp:" = true := by
  simp [strStartsWith, String.data_append]

theorem strStartsWith_app_not_mcp (n : String) : strStartsWith ("app:" ++ n) "mcp:" = false := by
  simp [strStartsWith, String.data_append, List.isPrefixOf_cons₂]

/-- C10: every owner produced by the owners construction has id app:
followed by the application name (with type app) or mcp: followed by the
server name (with type mcp), and an owner has type mcp exactly when its
id starts with mcp: as tested by the modal classification. -/
theorem owner_id_shape (apps : List AppItem) (servers : List ServerItem)
    (catalogTools : List CatalogTool)
    (mcpEndpointsByServer : List (String × List EndpointItem)) :
    ∀ owner ∈ ownersOf apps servers catalogTools mcpEndpointsByServer,
      ((∃ app ∈ apps, owner.id = "app:" ++ app.name ∧ owner.type = OwnerType.app) ∨
       (∃ server ∈ servers, owner.id = "mcp:" ++ server.name ∧ owner.type = OwnerType.mcp)) ∧
      (owner.type = OwnerType.mcp ↔ isMcpOwner owner.id = true) := by
  intro owner howner
  rcases List.mem_append.mp howner with hmem | hmem
  · obtain ⟨app, happ, rfl⟩ := List.mem_map.mp hmem
    refine ⟨Or.inl ⟨app, happ, rfl, rfl⟩, ?_⟩
    constructor
    · intro hty
      cases hty
    · intro hpre
      have hfalse : isMcpOwner ("app:" ++ app.name) = false := by
        simp [isMcpOwner]
        exact strStartsWith_app_not_mcp app.name
      rw [hfalse] at hpre
      cases hpre
  · obtain ⟨server, hserver, rfl⟩ := List.mem_map.mp hmem
    refine ⟨Or.inr ⟨server, hserver, rfl, rfl⟩, ?_⟩
    constructor
    · intro _
      simpa [isMcpOwner] using strStartsWith_mcp_append server.name
    · intro _
      rfl

/-- Witness for owner_id_shape at a concrete registry of one app and one
MCP server, applied to the MCP owner row. -/
theorem owner_id_shape_witness :
    isMcpOwner "mcp:files" = true :=
  ((owner_id_shape
    [{ name := "billing", url := "http://b:1", openapi_path := "",
       include_unreachable_tools := false }]
    [{ name := "files", url := "http://f:1/mcp" }] [] []
    { id := "mcp:files", type := OwnerType.mcp, name := "files", url := "http://f:1/mcp",
      endpointCount := 0 } (by decide)).2).mp rfl

end MCPManager
